import Mathlib

/-!
Verification of the ovn-kubernetes event core (shared-informer handler fan-out,
queue map) and the network-controller-manager lifecycle, embedded shallowly
from the Go sources:
  - `pkg/factory` informer/handler/queueMap code,
  - `pkg/network-controller-manager` manager lifecycle
    (`Start`, `createACLLoggingMeter`, `CleanupDeletedNetworks`).
Pure fragments become Lean functions; the stateful queue map becomes an
explicit step relation on a per-key state; callback invocations are recorded
as values so ordering and suppression can be stated.
-/

/-- Modelled from the spec: the constant `handlerAlive` (the initial liveness
state of a handler's tombstone word) is declared outside the provided sources;
the spec only requires it to be distinct from the dead state. -/
def handlerAlive : Nat := 0

/-- Modelled from the spec: the constant `handlerDead` (the removed liveness
state of a handler's tombstone word) is declared outside the provided sources;
the spec only requires the flag to move alive to dead, never back. -/
def handlerDead : Nat := 1

/-- A runtime type token (Go `reflect.Type`). The informer's declared types
are resource types; `deletedFinalStateUnknown` is the distinct type of the
cache's tombstone wrapper `cache.DeletedFinalStateUnknown`. -/
inductive GoType where
  | resource (name : String)
  | deletedFinalStateUnknown
deriving DecidableEq, Repr

/-- A dynamically-typed value handed to the informer callbacks: either a typed
resource object carrying object meta (uid, namespace, name), or a
`cache.DeletedFinalStateUnknown` tombstone wrapping another value. -/
inductive GoObj where
  | res (t : String) (uid : Nat) (ns name : String)
  | tomb (inner : GoObj)
deriving DecidableEq, Repr

/-- Function `reflect.TypeOf` on a delivered value. -/
def GoObj.typeOf : GoObj → GoType
  | .res t _ _ _ => .resource t
  | .tomb _ => .deletedFinalStateUnknown

/-- Whether the value is a plain resource object (implements `metav1.Object`). -/
def GoObj.isResource : GoObj → Bool
  | .res _ _ _ _ => true
  | .tomb _ => false

/-- Getter `GetUID` of the object meta. Only plain resource objects carry a uid; the
Go code only reads uids on the update path, where objects are never
tombstones (a tombstone there would fail the `metav1.Object` assertion). -/
def GoObj.getUID : GoObj → Nat
  | .res _ u _ _ => u
  | .tomb inner => inner.getUID

/-- One invocation of a handler's underlying (base) callback, recorded as a
value. -/
inductive Call where
  | add (o : GoObj)
  | update (old new : GoObj)
  | delete (o : GoObj)
deriving DecidableEq, Repr

/-- The factory `Handler`: unique id, atomic tombstone word and priority
(0 is the highest priority). The wrapped base
`cache.FilteringResourceEventHandler` is external; we observe it through the
`Call` values it would receive. -/
structure Handler where
  id : Nat
  tombstone : Nat
  priority : Nat
deriving DecidableEq, Repr

/-- Method `Handler.OnAdd`: forwards to the base callback only while alive. -/
def Handler.OnAdd (h : Handler) (obj : GoObj) : List Call :=
  if h.tombstone = handlerAlive then [Call.add obj] else []

/-- Method `Handler.OnUpdate`: forwards to the base callback only while alive. -/
def Handler.OnUpdate (h : Handler) (oldObj newObj : GoObj) : List Call :=
  if h.tombstone = handlerAlive then [Call.update oldObj newObj] else []

/-- Method `Handler.OnDelete`: forwards to the base callback only while alive. -/
def Handler.OnDelete (h : Handler) (obj : GoObj) : List Call :=
  if h.tombstone = handlerAlive then [Call.delete obj] else []

/-- Method `Handler.kill`: compare-and-swap of the tombstone word from
`handlerAlive` to `handlerDead`; returns the updated handler and whether the
swap succeeded. -/
def Handler.kill (h : Handler) : Handler × Bool :=
  if h.tombstone = handlerAlive then ({ h with tombstone := handlerDead }, true)
  else (h, false)

/-! The informer's handler registry is `handlers : map[int]map[uint64]*Handler`;
we model one iteration of an inner map as a list, so the registry is a
function from priority to the list of handlers at that priority. The bound
`minHandlerPriority` (lowest priority, declared outside the provided sources)
is carried as the parameter `minP`. -/

/-- Method `informer.forEachQueuedHandler`: traverse priorities 0 (highest) up to
`minP` (lowest), visiting every handler of each priority bucket. The returned
list is the visit order. -/
def forEachQueuedHandler (minP : Nat) (handlers : Nat → List Handler) : List Handler :=
  (List.range (minP + 1)).flatMap handlers

/-- Method `informer.forEachQueuedHandlerReversed`: traverse priorities `minP` down
to 0. -/
def forEachQueuedHandlerReversed (minP : Nat) (handlers : Nat → List Handler) : List Handler :=
  ((List.range (minP + 1)).reverse).flatMap handlers

/-- Method `informer.forEachHandler`: like the queued variant but first checks the
delivered object's runtime type against the informer's declared type,
visiting nobody on a mismatch. -/
def forEachHandler (minP : Nat) (handlers : Nat → List Handler) (oType : GoType)
    (obj : GoObj) : List Handler :=
  if obj.typeOf ≠ oType then [] else (List.range (minP + 1)).flatMap handlers

/-- Method `informer.forEachHandlerReversed`: type-checked traversal from `minP`
down to 0. -/
def forEachHandlerReversed (minP : Nat) (handlers : Nat → List Handler) (oType : GoType)
    (obj : GoObj) : List Handler :=
  if obj.typeOf ≠ oType then [] else ((List.range (minP + 1)).reverse).flatMap handlers

/-- Function `ensureObjectOnDelete`: accept the object as-is when its runtime type is
the expected one; otherwise it must be a tombstone wrapping an object of the
expected type, which is unwrapped; anything else is an error. -/
def ensureObjectOnDelete (obj : GoObj) (expectedType : GoType) : Except String GoObj :=
  if expectedType = obj.typeOf then Except.ok obj
  else
    match obj with
    | .tomb inner =>
        if expectedType ≠ inner.typeOf then
          Except.error ("expected tombstone object resource type mismatch")
        else Except.ok inner
    | _ => Except.error ("could not get object from tombstone")

/-- The body the `UpdateFunc` of both `newFederatedHandler` and
`newFederatedQueuedHandler` runs for each visited handler: when the old and
new uids differ the object was replaced in place, so a delete of the old
object followed by an add of the new one is synthesized; otherwise a plain
update is delivered. -/
def updateEventPerHandler (h : Handler) (oldObj newObj : GoObj) : List Call :=
  if oldObj.getUID ≠ newObj.getUID then h.OnDelete oldObj ++ h.OnAdd newObj
  else h.OnUpdate oldObj newObj

/-- Function `newFederatedHandler` builds an `UpdateFunc`: type-checked synchronous fan-out in
ascending priority order. -/
def federatedUpdate (minP : Nat) (handlers : Nat → List Handler) (oType : GoType)
    (oldObj newObj : GoObj) : List Call :=
  (forEachHandler minP handlers oType newObj).flatMap
    (fun h => updateEventPerHandler h oldObj newObj)

/-- The processing closure enqueued by `newFederatedQueuedHandler`'s
`UpdateFunc`: fan-out in ascending priority order on the worker. -/
def queuedUpdate (minP : Nat) (handlers : Nat → List Handler)
    (oldObj newObj : GoObj) : List Call :=
  (forEachQueuedHandler minP handlers).flatMap
    (fun h => updateEventPerHandler h oldObj newObj)

/-- Function `newFederatedHandler` builds a `DeleteFunc`: unwrap or reject via
`ensureObjectOnDelete` (a failure is logged and the event dropped), then
fan out the delete in descending priority order. -/
def federatedDelete (minP : Nat) (handlers : Nat → List Handler) (oType : GoType)
    (obj : GoObj) : List Call :=
  match ensureObjectOnDelete obj oType with
  | Except.error _ => []
  | Except.ok realObj =>
      (forEachHandlerReversed minP handlers oType realObj).flatMap
        (fun h => h.OnDelete realObj)

/-- Function `newFederatedQueuedHandler` builds a `DeleteFunc`, combined here with the processing
closure it enqueues: unwrap or reject before enqueueing (a failure drops the
event, nothing is enqueued), then fan out the delete in descending priority
order on the worker. -/
def queuedDelete (minP : Nat) (handlers : Nat → List Handler) (oType : GoType)
    (obj : GoObj) : List Call :=
  match ensureObjectOnDelete obj oType with
  | Except.error _ => []
  | Except.ok realObj =>
      (forEachQueuedHandlerReversed minP handlers).flatMap
        (fun h => h.OnDelete realObj)

/-! ## Queue map -/

/-- Method `queueMap.getNewQueueNum`: scan the whole ring of queues starting at a
random index and return the index of the queue with the fewest buffered
items, ties broken by the first slot seen. The queues are represented by
their current lengths; `startIdx` is the caller-supplied random start (in the
source, `cryptorand.Intn(numEventQueues - 1)`). -/
def getNewQueueNum (queueLens : List Nat) (startIdx : Nat) : Nat :=
  let numEventQueues := queueLens.length
  ((List.range numEventQueues).foldl
    (fun (acc : Nat × Nat) j =>
      let tryQueue := (startIdx + j) % numEventQueues
      let num := queueLens.getD tryQueue 0
      if num < acc.2 then (tryQueue, num) else acc)
    (startIdx, queueLens.getD startIdx 0)).1

/-- One call of `queueMap.getQueueMapEntry` for a given key, after object-meta
extraction: the key's current entry (refcount, queue index) if any, the queue
lengths and the random start index feeding `getNewQueueNum` are the inputs;
the returned entry is also the one stored back in the map for the key. If an
entry exists its refcount is atomically incremented, and a 0-to-1 transition
reassigns a fresh queue index for rebalance; if none exists a new entry with
refcount 1 and a load-balanced queue index is created. -/
def getQueueMapEntryStep (old : Option (Int × Nat)) (queueLens : List Nat)
    (startIdx : Nat) : Int × Nat :=
  match old with
  | some (refcount, queue) =>
      let newRefcount := refcount + 1
      if newRefcount = 1 then (newRefcount, getNewQueueNum queueLens startIdx)
      else (newRefcount, queue)
  | none => (1, getNewQueueNum queueLens startIdx)

/-! ### Per-key lifecycle of queue map entries

`getQueueMapEntry` / `enqueueEvent` / `releaseQueueMapEntry` touch only the
map entry of the event's own `(namespace, name)` key, so the entries map
decomposes per key. The state below tracks one key: whether the map currently
holds an entry for it (identified by a generation number, since the release
closure operates on the pointer captured at enqueue time, which may in
principle differ from the entry currently in the map), the refcount of every
entry generation ever allocated, the FIFO of in-flight events (all events of
one key are serialized onto one queue, so they complete in enqueue order),
and the kind of the most recently completed event. -/

/-- Refcount lookup in the per-generation refcount store (0 if absent). -/
def rcGet : List (Nat × Int) → Nat → Int
  | [], _ => 0
  | (g, v) :: t, g0 => if g = g0 then v else rcGet t g0

/-- Refcount update in the per-generation refcount store. -/
def rcSet : List (Nat × Int) → Nat → Int → List (Nat × Int)
  | [], g0, v0 => [(g0, v0)]
  | (g, v) :: t, g0, v0 => if g = g0 then (g0, v0) :: t else (g, v) :: rcSet t g0 v0

/-- The queue map's state restricted to one object key. -/
structure QMKeyState where
  nextGen : Nat
  current : Option Nat
  rc : List (Nat × Int)
  inflight : List (Bool × Nat)
  lastCompleted : Option Bool
deriving DecidableEq, Repr

/-- The state before any event for the key was seen. -/
def QMKeyState.init : QMKeyState :=
  { nextGen := 0, current := none, rc := [], inflight := [], lastCompleted := none }

/-- Method `enqueueEvent` for the key (which runs `getQueueMapEntry` and then queues
the event): an existing entry's refcount is incremented (`atomic.AddInt32`);
otherwise a fresh entry with refcount 1 is created and stored. The event,
tagged with its delete flag and the entry generation it captured, joins the
in-flight FIFO. The queue-index bookkeeping of `getQueueMapEntry` is the
separate `getQueueMapEntryStep`. -/
def stepAcquire (s : QMKeyState) (isDel : Bool) : QMKeyState :=
  match s.current with
  | some g =>
      { s with rc := rcSet s.rc g (rcGet s.rc g + 1),
               inflight := s.inflight ++ [(isDel, g)] }
  | none =>
      let g := s.nextGen
      { s with nextGen := g + 1, current := some g, rc := rcSet s.rc g 1,
               inflight := s.inflight ++ [(isDel, g)] }

/-- Completion of the oldest in-flight event for the key: the enqueued closure
runs `releaseQueueMapEntry(key, entry, del)`, which decrements the captured
entry's refcount and, only for a delete event whose decrement left the
refcount at or below zero, deletes the key's entry from the map. Returns
`none` when no event is in flight (no completion can occur). -/
def stepComplete (s : QMKeyState) : Option QMKeyState :=
  match s.inflight with
  | [] => none
  | (isDel, g) :: rest =>
      let newRc := rcGet s.rc g - 1
      some { s with
        rc := rcSet s.rc g newRc,
        inflight := rest,
        lastCompleted := some isDel,
        current := if isDel ∧ newRc ≤ 0 then none else s.current }

/-- One observable queue-map operation at the key: an event is enqueued
(`enqueueEvent`, with its delete flag), or the oldest in-flight event
completes. -/
inductive QOp where
  | acquire (isDel : Bool)
  | complete
deriving DecidableEq, Repr

/-- Run a sequence of operations from a state; `none` when some completion
had no in-flight event to complete. -/
def runQM : QMKeyState → List QOp → Option QMKeyState
  | s, [] => some s
  | s, QOp.acquire isDel :: t => runQM (stepAcquire s isDel) t
  | s, QOp.complete :: t =>
      match stepComplete s with
      | none => none
      | some s2 => runQM s2 t

/-! ## Network controller manager -/

/-- Outcomes of the three libovsdb calls made by `createACLLoggingMeter`
(external transaction client; only success or an error message matters). -/
structure MeterEnv where
  createMeterBandOps : Except String Unit
  createOrUpdateMeterOps : Except String Unit
  transactAndCheck : Except String Unit
deriving Repr

/-- Method `networkControllerManager.createACLLoggingMeter`: build the meter-band
ops, the meter ops and transact them, wrapping the first failure. -/
def createACLLoggingMeter (env : MeterEnv) : Except String Unit :=
  match env.createMeterBandOps with
  | Except.error e => Except.error ("cannot create meter band: " ++ e)
  | Except.ok _ =>
      match env.createOrUpdateMeterOps with
      | Except.error e => Except.error ("cannot create meter: " ++ e)
      | Except.ok _ =>
          match env.transactAndCheck with
          | Except.error e => Except.error ("cannot transact ACL logging meter: " ++ e)
          | Except.ok _ => Except.ok ()

/-- The startup steps `Start` can perform after the zone poll, in program
order, recorded so that skipped steps are observable. -/
inductive StartStep where
  | configureMetrics
  | configureSCTP
  | configureSvcTemplate
  | createACLLoggingMeter
  | configDurationRun
  | podRecorderRun
  | watchFactoryStart
  | initDefaultNetworkController
  | defaultNetworkControllerStart
  | nadControllerStart
deriving DecidableEq, Repr

/-- Environment of one `Start` call: results of the external calls it makes,
plus the relevant configuration. `nbZone` is the result of `util.GetNBZone`
(stable for the run), `cfgZone` is `config.Default.Zone`. -/
structure StartEnv where
  nbZone : Except String String
  cfgZone : String
  sctp : Except String Bool
  meterEnv : MeterEnv
  enableConfigDuration : Bool
  watchFactoryStart : Except String Unit
  initDefaultNC : Except String Unit
  defaultNCStart : Except String Unit
  nadPresent : Bool
  nadStart : Except String Unit
deriving Repr

/-- Method `networkControllerManager.Start`. The zone poll
(`wait.PollImmediate`) stops at the first conditional error, which a zone
lookup failure or a zone mismatch produces immediately; the outer `zone`
variable of `Start` is shadowed by the `zone` declared inside the poll
closure and therefore still holds the empty string when the failure is
wrapped. Each later step is recorded when attempted; a failing step returns
as the source does — note that a `createACLLoggingMeter` failure makes
`Start` return `nil` (success) at once, skipping every remaining step. -/
def Start (env : StartEnv) : Except String Unit × List StartStep :=
  let zoneOuter : String := ""
  let poll : Except String Unit :=
    match env.nbZone with
    | Except.error e =>
        Except.error ("error getting the zone name from the OVN Northbound db : " ++ e)
    | Except.ok zone =>
        if env.cfgZone ≠ zone then
          Except.error ("network controller manager zone " ++ env.cfgZone ++
            " mismatch with the Northbound db zone " ++ zone)
        else Except.ok ()
  match poll with
  | Except.error e =>
      (Except.error ("failed to start default network controller - OVN Nortboubd db zone "
        ++ zoneOuter ++ " doesn\x27t match with the configured zone " ++ env.cfgZone
        ++ " : err - " ++ e), [])
  | Except.ok _ =>
      let steps := [StartStep.configureMetrics]
      match env.sctp with
      | Except.error e => (Except.error e, steps ++ [StartStep.configureSCTP])
      | Except.ok _ =>
          let steps := steps ++ [StartStep.configureSCTP, StartStep.configureSvcTemplate,
            StartStep.createACLLoggingMeter]
          match createACLLoggingMeter env.meterEnv with
          | Except.error _ => (Except.ok (), steps)
          | Except.ok _ =>
              let steps := steps ++
                (if env.enableConfigDuration then [StartStep.configDurationRun] else []) ++
                [StartStep.podRecorderRun]
              match env.watchFactoryStart with
              | Except.error e => (Except.error e, steps ++ [StartStep.watchFactoryStart])
              | Except.ok _ =>
                  let steps := steps ++ [StartStep.watchFactoryStart]
                  match env.initDefaultNC with
                  | Except.error e =>
                      (Except.error ("failed to init default network controller: " ++ e),
                       steps ++ [StartStep.initDefaultNetworkController])
                  | Except.ok _ =>
                      let steps := steps ++ [StartStep.initDefaultNetworkController]
                      match env.defaultNCStart with
                      | Except.error e =>
                          (Except.error ("failed to start default network controller: " ++ e),
                           steps ++ [StartStep.defaultNetworkControllerStart])
                      | Except.ok _ =>
                          let steps := steps ++ [StartStep.defaultNetworkControllerStart]
                          if env.nadPresent then
                            (env.nadStart, steps ++ [StartStep.nadControllerStart])
                          else (Except.ok (), steps)

/-- A logical switch or router of a secondary network, reduced to the two
external-IDs `CleanupDeletedNetworks` reads (the entities returned by
`findAllSecondaryNetworkLogicalEntities` all carry the network external-ID,
by its predicates). -/
structure SecondaryEntity where
  netName : String
  topoType : String
deriving DecidableEq, Repr

/-- Environment of one `CleanupDeletedNetworks` call: the names of the
running controllers, the result of enumerating secondary-network switches and
routers, whether `newDummyNetworkController` succeeds for a given topology
and network, and the per-network result of `Cleanup`. -/
structure CleanupEnv where
  allControllerNames : List String
  find : Except String (List SecondaryEntity × List SecondaryEntity)
  dummyOk : String → String → Bool
  cleanup : String → Except String Unit

/-- Insertion into the `staleNetworkControllers` map, tracked by network name
(a repeated name overwrites the stored controller; the set of keys is what
the cleanup loop ranges over). -/
def insertNet (m : List String) (net : String) : List String :=
  if net ∈ m then m else m ++ [net]

/-- The keys of `staleNetworkControllers`: networks named by an enumerated
switch or router, absent from the running set, whose dummy controller was
successfully instantiated (a failed instantiation is skipped silently). -/
def staleNetworks (env : CleanupEnv) (switches routers : List SecondaryEntity) :
    List String :=
  let fromSwitches := switches.foldl
    (fun m ls =>
      if ls.netName ∈ env.allControllerNames then m
      else if env.dummyOk ls.topoType ls.netName then insertNet m ls.netName else m) []
  routers.foldl
    (fun m lr =>
      if lr.netName ∈ env.allControllerNames then m
      else if env.dummyOk lr.topoType lr.netName then insertNet m lr.netName else m)
    fromSwitches

/-- The final loop of `CleanupDeletedNetworks`: invoke `Cleanup` on every
stale network in turn, recording each invocation and its result; a failure is
only logged and the loop continues. -/
def cleanupLoop (cleanup : String → Except String Unit) :
    List String → List (String × Except String Unit)
  | [] => []
  | net :: rest => (net, cleanup net) :: cleanupLoop cleanup rest

/-- Method `networkControllerManager.CleanupDeletedNetworks`: returns the
enumeration error if finding the logical entities failed, and otherwise `ok`
regardless of per-network cleanup failures, together with the record of the
`Cleanup` invocations it performed. -/
def CleanupDeletedNetworks (env : CleanupEnv) :
    Except String Unit × List (String × Except String Unit) :=
  match env.find with
  | Except.error e => (Except.error e, [])
  | Except.ok (switches, routers) =>
      (Except.ok (), cleanupLoop env.cleanup (staleNetworks env switches routers))

/-- The string `t` occurs inside `s` (stated over the character lists). -/
def strContains (s t : String) : Prop :=
  ∃ a b : List Char, s.data = a ++ t.data ++ b

/-! ## Invariants and concrete instances used by the theorems below -/

/-- The per-key invariant of the queue map: every in-flight event holds the
current entry generation, whose refcount equals the number of in-flight
events; and the entry is absent exactly when nothing is in flight and the key
has either never seen a completion or last completed a delete. -/
def QMInv (s : QMKeyState) : Prop :=
  (∀ g, s.current = some g →
      ((∀ p ∈ s.inflight, p.2 = g) ∧ rcGet s.rc g = (s.inflight.length : Int))) ∧
  (s.current = none → s.inflight = []) ∧
  (s.current = none ↔
      (s.inflight = [] ∧ (s.lastCompleted = none ∨ s.lastCompleted = some true)))

/-- The per-key state after an enqueued delete event for the key completed:
the result of running `[QOp.acquire true, QOp.complete]` from the initial
state. -/
def qmDeleteDoneState : QMKeyState :=
  { nextGen := 1, current := none, rc := [(0, 0)], inflight := [],
    lastCompleted := some true }

/-- A `Start` environment in which everything succeeds except the final
transaction of `createACLLoggingMeter`. -/
def meterFailEnv : StartEnv :=
  { nbZone := Except.ok ("z"), cfgZone := "z", sctp := Except.ok true,
    meterEnv := { createMeterBandOps := Except.ok (),
                  createOrUpdateMeterOps := Except.ok (),
                  transactAndCheck := Except.error ("txn failed") },
    enableConfigDuration := true, watchFactoryStart := Except.ok (),
    initDefaultNC := Except.ok (), defaultNCStart := Except.ok (),
    nadPresent := true, nadStart := Except.ok () }

/-- The same environment but with the meter creation succeeding and the watch
factory failing instead. -/
def watchFailEnv : StartEnv :=
  { meterFailEnv with
    meterEnv := { createMeterBandOps := Except.ok (),
                  createOrUpdateMeterOps := Except.ok (),
                  transactAndCheck := Except.ok () },
    watchFactoryStart := Except.error ("watch factory failed") }

/-- A `Start` environment whose configured zone `z1` differs from the zone
`z2` reported by the northbound database. -/
def zoneMismatchEnv : StartEnv :=
  { meterFailEnv with nbZone := Except.ok ("z2"), cfgZone := "z1" }

/-- A cleanup environment with two stale networks (`netA`, whose cleanup
fails, and `netC`), one stale network whose dummy controller cannot be
instantiated (`netB`), and one running network (`default`). -/
def cleanupWitnessEnv : CleanupEnv :=
  { allControllerNames := ["default"],
    find := Except.ok
      ([{ netName := "netA", topoType := "layer3" },
        { netName := "netB", topoType := "layer2" }],
       [{ netName := "netC", topoType := "localnet" },
        { netName := "default", topoType := "layer3" }]),
    dummyOk := fun _ n => n ≠ "netB",
    cleanup := fun n => if n = "netA" then Except.error ("cleanup failed") else Except.ok () }

/-! ## Helper lemmas -/

/-- A sublist relation is preserved by flattening through `f`. -/
theorem sublist_flatMap_mono {α β : Type} {l₁ l₂ : List α} (f : α → List β)
    (h : l₁.Sublist l₂) : (l₁.flatMap f).Sublist (l₂.flatMap f) := by
  induction h with
  | slnil => simp
  | cons a h ih =>
      simp only [List.flatMap_cons]
      exact ih.trans (List.sublist_append_right _ _)
  | cons₂ a h ih =>
      simp only [List.flatMap_cons]
      exact List.Sublist.append (List.Sublist.refl _) ih

/-- Two naturals in increasing order form a sublist of `List.range`. -/
theorem pair_sublist_range {p q n : Nat} (hpq : p < q) (hqn : q < n) :
    ([p, q]).Sublist (List.range n) := by
  induction n with
  | zero => omega
  | succ m ih =>
      rcases Nat.lt_or_ge q m with hlt | hge
      · exact (ih hlt).trans (by rw [List.range_succ]; exact List.sublist_append_left _ _)
      · have hqm : q = m := by omega
        subst hqm
        rw [List.range_succ]
        have h1 : ([p]).Sublist (List.range q) := by
          rw [List.singleton_sublist, List.mem_range]; exact hpq
        exact List.Sublist.append h1 (List.Sublist.refl _)

/-- An element of bucket `p` precedes an element of bucket `q > p` in the
flattened ascending traversal. -/
theorem pair_flatMap_sublist {p q n : Nat} (f : Nat → List Handler) (hpq : p < q) (hqn : q < n)
    {a b : Handler} (ha : a ∈ f p) (hb : b ∈ f q) :
    ([a, b]).Sublist ((List.range n).flatMap f) := by
  have h1 : ([a, b]).Sublist (([p, q]).flatMap f) := by
    simp only [List.flatMap_cons, List.flatMap_nil, List.append_nil]
    have h2 : ([a] ++ [b]).Sublist (f p ++ f q) :=
      List.Sublist.append (List.singleton_sublist.mpr ha) (List.singleton_sublist.mpr hb)
    simpa using h2
  exact h1.trans (sublist_flatMap_mono f (pair_sublist_range hpq hqn))

/-- An element of bucket `q` precedes an element of bucket `p < q` in the
flattened descending traversal. -/
theorem pair_flatMap_sublist_rev {p q n : Nat} (f : Nat → List Handler) (hpq : p < q) (hqn : q < n)
    {a b : Handler} (ha : a ∈ f p) (hb : b ∈ f q) :
    ([b, a]).Sublist (((List.range n).reverse).flatMap f) := by
  have h1 : ([b, a]).Sublist (([q, p]).flatMap f) := by
    simp only [List.flatMap_cons, List.flatMap_nil, List.append_nil]
    have h2 : ([b] ++ [a]).Sublist (f q ++ f p) :=
      List.Sublist.append (List.singleton_sublist.mpr hb) (List.singleton_sublist.mpr ha)
    simpa using h2
  refine h1.trans (sublist_flatMap_mono f ?_)
  have h3 := (pair_sublist_range hpq hqn).reverse
  simpa using h3

/-- With distinct uids, the per-handler update body emits no update call. -/
theorem update_not_mem_perHandler (h : Handler) (oldObj newObj : GoObj)
    (hne : oldObj.getUID ≠ newObj.getUID) (o1 o2 : GoObj) :
    Call.update o1 o2 ∉ updateEventPerHandler h oldObj newObj := by
  simp only [updateEventPerHandler, if_pos hne, Handler.OnDelete, Handler.OnAdd]
  split <;> simp

/-- Reading back a refcount just stored. -/
theorem rcGet_rcSet_self (h : List (Nat × Int)) (g : Nat) (v : Int) :
    rcGet (rcSet h g v) g = v := by
  induction h with
  | nil => simp [rcGet, rcSet]
  | cons hd t ih =>
      obtain ⟨g1, v1⟩ := hd
      by_cases hg : g1 = g
      · simp [rcGet, rcSet, hg]
      · simp [rcGet, rcSet, hg, ih]

/-- The queue-map invariant holds initially. -/
theorem qminv_init : QMInv QMKeyState.init := by
  refine ⟨?_, ?_, ?_⟩ <;> simp [QMKeyState.init]

/-- The queue-map invariant is preserved by enqueueing an event. -/
theorem qminv_acquire (s : QMKeyState) (isDel : Bool) (h : QMInv s) :
    QMInv (stepAcquire s isDel) := by
  obtain ⟨h1, h2, h3⟩ := h
  rcases hc : s.current with _ | g
  · -- no entry: fresh generation with refcount 1
    have hemp : s.inflight = [] := h2 hc
    refine ⟨?_, ?_, ?_⟩
    · intro g2 hg2
      simp [stepAcquire, hc] at hg2 ⊢
      subst hg2
      simp [hemp, rcGet_rcSet_self]
    · intro hnone
      simp [stepAcquire, hc] at hnone
    · simp [stepAcquire, hc, hemp]
  · -- existing entry: refcount increments
    obtain ⟨hall, hrc⟩ := h1 g hc
    refine ⟨?_, ?_, ?_⟩
    · intro g2 hg2
      simp [stepAcquire, hc] at hg2
      subst hg2
      constructor
      · intro p hp
        simp [stepAcquire, hc] at hp
        rcases hp with hp | hp
        · exact hall p hp
        · simp [hp]
      · simp [stepAcquire, hc, rcGet_rcSet_self, hrc]
    · intro hnone
      simp [stepAcquire, hc] at hnone
    · simp [stepAcquire, hc]

/-- The queue-map invariant is preserved by completing the oldest in-flight
event. -/
theorem qminv_complete (s s2 : QMKeyState) (h : QMInv s)
    (hc : stepComplete s = some s2) : QMInv s2 := by
  obtain ⟨h1, h2, h3⟩ := h
  rcases hin : s.inflight with _ | ⟨⟨d, g⟩, rest⟩
  · simp [stepComplete, hin] at hc
  · -- the completing event's entry generation is the current one
    rcases hcur : s.current with _ | g0
    · have h4 := h2 hcur
      simp [h4] at hin
    · obtain ⟨hall, hrc⟩ := h1 g0 hcur
      have hg : g = g0 := hall (d, g) (by simp [hin])
      subst hg
      have hlen : rcGet s.rc g = (rest.length : Int) + 1 := by
        rw [hrc, hin]; simp
      simp only [stepComplete, hin, Option.some_inj] at hc
      subst hc
      rcases hd : d with _ | _
      · -- non-delete completion: entry survives
        refine ⟨?_, ?_, ?_⟩
        · intro g2 hg2
          simp only [hd, hcur] at hg2 ⊢
          simp at hg2
          subst hg2
          refine ⟨fun p hp => hall p (by simp [hin, hp]), ?_⟩
          simp [rcGet_rcSet_self, hlen]
        · intro hnone
          simp [hd, hcur] at hnone
        · simp [hd, hcur]
      · -- delete completion: entry removed iff the refcount fell to ≤ 0
        by_cases hzero : rcGet s.rc g - 1 ≤ 0
        · have hrest : rest = [] := by
            rw [hlen] at hzero
            have hle : (rest.length : Int) ≤ 0 := by omega
            simpa using hle
          refine ⟨?_, ?_, ?_⟩
          · intro g2 hg2
            simp [hd, hzero] at hg2
          · intro _
            exact hrest
          · simp [hd, hzero, hrest]
        · have hrest : rest ≠ [] := by
            intro hr
            rw [hlen, hr] at hzero
            simp at hzero
          refine ⟨?_, ?_, ?_⟩
          · intro g2 hg2
            simp only [hd, hzero] at hg2
            simp only [hcur] at hg2
            simp at hg2
            subst hg2
            refine ⟨fun p hp => hall p (by simp [hin, hp]), ?_⟩
            simp [hd, hzero, rcGet_rcSet_self, hlen]
          · intro hnone
            simp [hd, hzero, hcur] at hnone
          · simp [hd, hzero, hcur, hrest]

/-- The queue-map invariant holds in every reachable state. -/
theorem qminv_run (ops : List QOp) (s0 s : QMKeyState) (h0 : QMInv s0)
    (h : runQM s0 ops = some s) : QMInv s := by
  induction ops generalizing s0 with
  | nil => simp [runQM] at h; rwa [← h]
  | cons op t ih =>
      cases op with
      | acquire isDel =>
          simp only [runQM] at h
          exact ih (stepAcquire s0 isDel) (qminv_acquire s0 isDel h0) h
      | complete =>
          simp only [runQM] at h
          rcases hc : stepComplete s0 with _ | s1
          · rw [hc] at h; simp at h
          · rw [hc] at h
            exact ih s1 (qminv_complete s0 s1 h0 hc) h

/-- Every network in the stale list gets its `Cleanup` invocation recorded. -/
theorem mem_cleanupLoop (cleanup : String → Except String Unit) (l : List String)
    (net : String) (h : net ∈ l) : (net, cleanup net) ∈ cleanupLoop cleanup l := by
  induction l with
  | nil => simp at h
  | cons hd tl ih =>
      rcases List.mem_cons.mp h with h | h
      · subst h
        simp [cleanupLoop]
      · simp only [cleanupLoop, List.mem_cons]
        exact Or.inr (ih h)

/-! ## Claim theorems -/

/-- Claim C1 (code bug evidence): when `createACLLoggingMeter` fails during
manager `Start`, the source executes `return nil`: `Start` reports success
immediately and the remaining startup steps (config-duration recorder, pod
recorder, watch factory, default network controller, NAD supervisor) are all
skipped, and nothing is logged — contradicting the documented behavior that
the failure is logged and tolerated while startup continues. By contrast a
watch-factory failure does make `Start` return an error. -/
theorem start_meter_failure_skips_rest :
    createACLLoggingMeter meterFailEnv.meterEnv
        = Except.error ("cannot transact ACL logging meter: txn failed") ∧
    (Start meterFailEnv).1 = Except.ok () ∧
    (Start meterFailEnv).2 = [StartStep.configureMetrics, StartStep.configureSCTP,
      StartStep.configureSvcTemplate, StartStep.createACLLoggingMeter] ∧
    StartStep.configDurationRun ∉ (Start meterFailEnv).2 ∧
    StartStep.podRecorderRun ∉ (Start meterFailEnv).2 ∧
    StartStep.watchFactoryStart ∉ (Start meterFailEnv).2 ∧
    StartStep.initDefaultNetworkController ∉ (Start meterFailEnv).2 ∧
    StartStep.defaultNetworkControllerStart ∉ (Start meterFailEnv).2 ∧
    StartStep.nadControllerStart ∉ (Start meterFailEnv).2 ∧
    (Start watchFailEnv).1 = Except.error ("watch factory failed") := by
  refine ⟨rfl, rfl, rfl, ?_, ?_, ?_, ?_, ?_, ?_, rfl⟩ <;> decide

/-- Claim C2: when manager `Start` fails because the northbound database zone
differs from the configured zone, the returned error message contains both
the zone observed from the database and the configured zone (the observed
zone reaches the message through the wrapped poll-condition error; the outer
message slot for it is the shadowed, still-empty `zone` variable). -/
theorem start_zone_mismatch_error_names_both (env : StartEnv) (obs : String)
    (hobs : env.nbZone = Except.ok obs) (hne : env.cfgZone ≠ obs) :
    ∃ msg, (Start env).1 = Except.error msg ∧ strContains msg obs ∧
      strContains msg env.cfgZone := by
  have hmsg : (Start env).1 = Except.error
      ("failed to start default network controller - OVN Nortboubd db zone "
        ++ "" ++ " doesn\x27t match with the configured zone " ++ env.cfgZone
        ++ " : err - " ++ ("network controller manager zone " ++ env.cfgZone
        ++ " mismatch with the Northbound db zone " ++ obs)) := by
    simp [Start, hobs, hne]
  refine ⟨_, hmsg, ?_, ?_⟩
  · refine ⟨("failed to start default network controller - OVN Nortboubd db zone "
        ++ "" ++ " doesn\x27t match with the configured zone " ++ env.cfgZone
        ++ " : err - " ++ "network controller manager zone " ++ env.cfgZone
        ++ " mismatch with the Northbound db zone ").data, [], ?_⟩
    simp [String.data_append]
  · refine ⟨("failed to start default network controller - OVN Nortboubd db zone "
        ++ "" ++ " doesn\x27t match with the configured zone ").data,
      (" : err - " ++ "network controller manager zone " ++ env.cfgZone
        ++ " mismatch with the Northbound db zone " ++ obs).data, ?_⟩
    simp [String.data_append]

/-- Witness for claim C2 at configured zone `z1` and observed zone `z2`. -/
theorem start_zone_mismatch_error_names_both_witness :
    ∃ msg, (Start zoneMismatchEnv).1 = Except.error msg ∧ strContains msg ("z2") ∧
      strContains msg zoneMismatchEnv.cfgZone :=
  start_zone_mismatch_error_names_both zoneMismatchEnv ("z2") rfl (by decide)

/-- Claim C3: for every delivered event and every pair of registered handlers
with priorities `p < q` (both within the traversed range), the ascending
traversals used for add and update events visit the priority-`p` handler
before the priority-`q` handler, and the descending traversals used for
delete events visit the priority-`q` handler before the priority-`p`
handler, in both the queued and the type-checked federated fan-out. -/
theorem fanout_priority_pair_order (minP p q : Nat) (handlers : Nat → List Handler)
    (hp hq : Handler) (oType : GoType) (obj : GoObj)
    (hpq : p < q) (hqle : q ≤ minP)
    (hmp : hp ∈ handlers p) (hmq : hq ∈ handlers q)
    (hty : obj.typeOf = oType) :
    ([hp, hq]).Sublist (forEachQueuedHandler minP handlers) ∧
    ([hq, hp]).Sublist (forEachQueuedHandlerReversed minP handlers) ∧
    ([hp, hq]).Sublist (forEachHandler minP handlers oType obj) ∧
    ([hq, hp]).Sublist (forEachHandlerReversed minP handlers oType obj) := by
  have hqn : q < minP + 1 := by omega
  refine ⟨pair_flatMap_sublist handlers hpq hqn hmp hmq,
          pair_flatMap_sublist_rev handlers hpq hqn hmp hmq, ?_, ?_⟩
  · rw [forEachHandler, if_neg (by simp [hty])]
    exact pair_flatMap_sublist handlers hpq hqn hmp hmq
  · rw [forEachHandlerReversed, if_neg (by simp [hty])]
    exact pair_flatMap_sublist_rev handlers hpq hqn hmp hmq

/-- Witness for claim C3 with one priority-0 and one priority-1 handler. -/
theorem fanout_priority_pair_order_witness :
    ([⟨10, 0, 0⟩, ⟨11, 0, 1⟩] : List Handler).Sublist
      (forEachQueuedHandler 1 (fun n => if n = 0 then [⟨10, 0, 0⟩] else if n = 1 then [⟨11, 0, 1⟩] else [])) ∧
    ([(⟨11, 0, 1⟩ : Handler), ⟨10, 0, 0⟩]).Sublist
      (forEachQueuedHandlerReversed 1 (fun n => if n = 0 then [⟨10, 0, 0⟩] else if n = 1 then [⟨11, 0, 1⟩] else [])) ∧
    ([(⟨10, 0, 0⟩ : Handler), ⟨11, 0, 1⟩]).Sublist
      (forEachHandler 1 (fun n => if n = 0 then [⟨10, 0, 0⟩] else if n = 1 then [⟨11, 0, 1⟩] else [])
        (GoType.resource ("Pod")) (GoObj.res ("Pod") 1 ("ns") ("a"))) ∧
    ([(⟨11, 0, 1⟩ : Handler), ⟨10, 0, 0⟩]).Sublist
      (forEachHandlerReversed 1 (fun n => if n = 0 then [⟨10, 0, 0⟩] else if n = 1 then [⟨11, 0, 1⟩] else [])
        (GoType.resource ("Pod")) (GoObj.res ("Pod") 1 ("ns") ("a"))) :=
  fanout_priority_pair_order 1 0 1 _ _ _ _ _ (by decide) (by decide) (by decide) (by decide) rfl

/-- Claim C4 (amended): in every reachable per-key queue-map state, the entry
for the key is absent iff no event for the key is in flight and either no
event for the key has completed yet or the last completed event was a
delete; and completing a non-delete event decrements the captured entry's
refcount without removing the entry. The unamended claim fails only in
states where no event for the key has completed (see the counterexample). -/
theorem queueMap_entry_absence (ops : List QOp) (s : QMKeyState)
    (hreach : runQM QMKeyState.init ops = some s) :
    (s.current = none ↔
        (s.inflight = [] ∧ (s.lastCompleted = none ∨ s.lastCompleted = some true))) ∧
    (∀ g rest s2, s.inflight = (false, g) :: rest → stepComplete s = some s2 →
        s2.current = s.current ∧ rcGet s2.rc g = rcGet s.rc g - 1) := by
  refine ⟨(qminv_run ops QMKeyState.init s qminv_init hreach).2.2, ?_⟩
  intro g rest s2 hin hc
  simp only [stepComplete, hin, Option.some_inj] at hc
  subst hc
  simp [rcGet_rcSet_self]

/-- Counterexample to claim C4 as stated: in the reachable initial state the
entry for the key is absent although the last completed event for the key was
not a delete (no event has ever completed), refuting the claimed
equivalence. -/
theorem queueMap_entry_absence_cex :
    runQM QMKeyState.init [] = some QMKeyState.init ∧
    QMKeyState.init.current = none ∧
    ¬ (QMKeyState.init.inflight = [] ∧ QMKeyState.init.lastCompleted = some true) := by
  refine ⟨rfl, rfl, ?_⟩
  simp [QMKeyState.init]

/-- Witness for claim C4 at the state reached by a delete that completed. -/
theorem queueMap_entry_absence_witness :
    (qmDeleteDoneState.current = none ↔
        (qmDeleteDoneState.inflight = [] ∧
          (qmDeleteDoneState.lastCompleted = none ∨
            qmDeleteDoneState.lastCompleted = some true))) ∧
    (∀ g rest s2, qmDeleteDoneState.inflight = (false, g) :: rest →
        stepComplete qmDeleteDoneState = some s2 →
        s2.current = qmDeleteDoneState.current ∧
        rcGet s2.rc g = rcGet qmDeleteDoneState.rc g - 1) :=
  queueMap_entry_absence [QOp.acquire true, QOp.complete] qmDeleteDoneState (by decide)

/-- Claim C5: one `getQueueMapEntry` call behaves by cases on the stored
entry: a refcount transition 0 to 1 reassigns a freshly chosen (load
balanced) queue index, a refcount at least 1 is incremented with the queue
index unchanged, and a missing entry is created with refcount 1 and a load
balanced index. -/
theorem getQueueMapEntry_cases (queueLens : List Nat) (startIdx : Nat)
    (rc : Int) (q : Nat) :
    (getQueueMapEntryStep (some (0, q)) queueLens startIdx
        = (1, getNewQueueNum queueLens startIdx)) ∧
    (1 ≤ rc → getQueueMapEntryStep (some (rc, q)) queueLens startIdx = (rc + 1, q)) ∧
    (getQueueMapEntryStep none queueLens startIdx
        = (1, getNewQueueNum queueLens startIdx)) := by
  refine ⟨by simp [getQueueMapEntryStep], fun h => ?_, rfl⟩
  simp only [getQueueMapEntryStep]
  rw [if_neg (by omega)]

/-- Witness for claim C5 on a three-queue map. -/
theorem getQueueMapEntry_cases_witness :
    (getQueueMapEntryStep (some (0, 2)) [3, 1, 2] 0 = (1, getNewQueueNum [3, 1, 2] 0)) ∧
    (1 ≤ (2 : Int) → getQueueMapEntryStep (some (2, 2)) [3, 1, 2] 0 = (2 + 1, 2)) ∧
    (getQueueMapEntryStep none [3, 1, 2] 0 = (1, getNewQueueNum [3, 1, 2] 0)) :=
  getQueueMapEntry_cases [3, 1, 2] 0 2 2

/-- Claim C6: on an update whose old and new objects carry distinct uids,
each alive handler receives the delete of the old object followed by the add
of the new one and no update call is emitted by the whole fan-out of either
delivery path; with equal uids the handler receives a single update call.
The per-handler body is shared verbatim by the federated and the
federated-and-queued update paths. -/
theorem update_replacement_semantics (minP : Nat) (handlers : Nat → List Handler)
    (oType : GoType) (oldObj newObj : GoObj) (h : Handler)
    (halive : h.tombstone = handlerAlive)
    (_hro : oldObj.isResource = true) (_hrn : newObj.isResource = true) :
    (oldObj.getUID ≠ newObj.getUID →
        updateEventPerHandler h oldObj newObj = [Call.delete oldObj, Call.add newObj] ∧
        (∀ o1 o2, Call.update o1 o2 ∉ federatedUpdate minP handlers oType oldObj newObj) ∧
        (∀ o1 o2, Call.update o1 o2 ∉ queuedUpdate minP handlers oldObj newObj)) ∧
    (oldObj.getUID = newObj.getUID →
        updateEventPerHandler h oldObj newObj = [Call.update oldObj newObj]) := by
  constructor
  · intro hne
    refine ⟨?_, ?_, ?_⟩
    · simp [updateEventPerHandler, if_pos hne, Handler.OnDelete, Handler.OnAdd, halive]
    · intro o1 o2 hmem
      rw [federatedUpdate, List.mem_flatMap] at hmem
      obtain ⟨h2, _, hm2⟩ := hmem
      exact update_not_mem_perHandler h2 oldObj newObj hne o1 o2 hm2
    · intro o1 o2 hmem
      rw [queuedUpdate, List.mem_flatMap] at hmem
      obtain ⟨h2, _, hm2⟩ := hmem
      exact update_not_mem_perHandler h2 oldObj newObj hne o1 o2 hm2
  · intro heq
    simp [updateEventPerHandler, heq, Handler.OnUpdate, halive]

/-- Witness for claim C6 on two pods with uids 1 and 2. -/
theorem update_replacement_semantics_witness :
    ((GoObj.res ("Pod") 1 ("ns") ("x")).getUID ≠ (GoObj.res ("Pod") 2 ("ns") ("x")).getUID →
        updateEventPerHandler ⟨7, 0, 0⟩ (GoObj.res ("Pod") 1 ("ns") ("x")) (GoObj.res ("Pod") 2 ("ns") ("x"))
          = [Call.delete (GoObj.res ("Pod") 1 ("ns") ("x")), Call.add (GoObj.res ("Pod") 2 ("ns") ("x"))] ∧
        (∀ o1 o2, Call.update o1 o2 ∉ federatedUpdate 1 (fun _ => [⟨7, 0, 0⟩]) (GoType.resource ("Pod"))
            (GoObj.res ("Pod") 1 ("ns") ("x")) (GoObj.res ("Pod") 2 ("ns") ("x"))) ∧
        (∀ o1 o2, Call.update o1 o2 ∉ queuedUpdate 1 (fun _ => [⟨7, 0, 0⟩])
            (GoObj.res ("Pod") 1 ("ns") ("x")) (GoObj.res ("Pod") 2 ("ns") ("x")))) ∧
    ((GoObj.res ("Pod") 1 ("ns") ("x")).getUID = (GoObj.res ("Pod") 2 ("ns") ("x")).getUID →
        updateEventPerHandler ⟨7, 0, 0⟩ (GoObj.res ("Pod") 1 ("ns") ("x")) (GoObj.res ("Pod") 2 ("ns") ("x"))
          = [Call.update (GoObj.res ("Pod") 1 ("ns") ("x")) (GoObj.res ("Pod") 2 ("ns") ("x"))]) :=
  update_replacement_semantics 1 (fun _ => [⟨7, 0, 0⟩]) (GoType.resource ("Pod"))
    (GoObj.res ("Pod") 1 ("ns") ("x")) (GoObj.res ("Pod") 2 ("ns") ("x")) ⟨7, 0, 0⟩ rfl rfl rfl

/-- Claim C7: `kill` swaps an alive handler to dead and reports success,
leaves a non-alive handler unchanged reporting failure, so killing twice
always fails the second time (the flag moves alive to dead only once); and on
a dead handler the `OnAdd`, `OnUpdate` and `OnDelete` methods invoke none of
the underlying callbacks. -/
theorem handler_kill_once_dead_silent (h : Handler) (o o1 o2 : GoObj) :
    (h.tombstone = handlerAlive → h.kill = ({ h with tombstone := handlerDead }, true)) ∧
    (h.tombstone ≠ handlerAlive → h.kill = (h, false)) ∧
    ((h.kill.1.kill).2 = false) ∧
    (h.tombstone = handlerDead →
        h.OnAdd o = [] ∧ h.OnUpdate o1 o2 = [] ∧ h.OnDelete o = []) := by
  refine ⟨fun ha => by simp [Handler.kill, ha], fun ha => by simp [Handler.kill, ha], ?_, fun hd => ?_⟩
  · by_cases ha : h.tombstone = handlerAlive
    · simp [Handler.kill, ha, handlerAlive, handlerDead]
    · simp [Handler.kill, ha]
  · have hne : h.tombstone ≠ handlerAlive := by rw [hd]; decide
    simp [Handler.OnAdd, Handler.OnUpdate, Handler.OnDelete, hne]

/-- Witness for claim C7 on a dead handler. -/
theorem handler_kill_once_dead_silent_witness :
    (((⟨3, handlerDead, 0⟩ : Handler)).tombstone = handlerAlive →
        ((⟨3, handlerDead, 0⟩ : Handler)).kill = ({ (⟨3, handlerDead, 0⟩ : Handler) with tombstone := handlerDead }, true)) ∧
    (((⟨3, handlerDead, 0⟩ : Handler)).tombstone ≠ handlerAlive →
        ((⟨3, handlerDead, 0⟩ : Handler)).kill = ((⟨3, handlerDead, 0⟩ : Handler), false)) ∧
    ((((⟨3, handlerDead, 0⟩ : Handler)).kill.1.kill).2 = false) ∧
    (((⟨3, handlerDead, 0⟩ : Handler)).tombstone = handlerDead →
        ((⟨3, handlerDead, 0⟩ : Handler)).OnAdd (GoObj.res ("Pod") 1 ("n") ("a")) = [] ∧
        ((⟨3, handlerDead, 0⟩ : Handler)).OnUpdate (GoObj.res ("Pod") 1 ("n") ("a")) (GoObj.res ("Pod") 2 ("n") ("a")) = [] ∧
        ((⟨3, handlerDead, 0⟩ : Handler)).OnDelete (GoObj.res ("Pod") 1 ("n") ("a")) = []) :=
  handler_kill_once_dead_silent ⟨3, handlerDead, 0⟩ (GoObj.res ("Pod") 1 ("n") ("a"))
    (GoObj.res ("Pod") 1 ("n") ("a")) (GoObj.res ("Pod") 2 ("n") ("a"))

/-- Claim C8: a delete-event object of the declared type is routed as-is; a
tombstone wrapping an object of the declared type is unwrapped and the inner
object routed; in every other case `ensureObjectOnDelete` errors and both
delete paths drop the event without invoking any handler. The declared type
is a resource type, never the tombstone type itself. -/
theorem delete_routing_cases (minP : Nat) (handlers : Nat → List Handler)
    (expected : GoType) (obj : GoObj)
    (hexp : expected ≠ GoType.deletedFinalStateUnknown) :
    (obj.typeOf = expected → ensureObjectOnDelete obj expected = Except.ok obj) ∧
    (∀ inner, obj = GoObj.tomb inner → inner.typeOf = expected →
        ensureObjectOnDelete obj expected = Except.ok inner) ∧
    (obj.typeOf ≠ expected →
        (∀ inner, obj = GoObj.tomb inner → inner.typeOf ≠ expected) →
        (∃ msg, ensureObjectOnDelete obj expected = Except.error msg) ∧
        federatedDelete minP handlers expected obj = [] ∧
        queuedDelete minP handlers expected obj = []) := by
  refine ⟨fun hty => by simp [ensureObjectOnDelete, hty], ?_, ?_⟩
  · intro inner hobj hty
    subst hobj
    have h1 : ¬ expected = (GoObj.tomb inner).typeOf := by
      simpa [GoObj.typeOf] using hexp
    show (if expected = (GoObj.tomb inner).typeOf then Except.ok (GoObj.tomb inner)
        else if expected ≠ inner.typeOf then
          Except.error ("expected tombstone object resource type mismatch")
        else Except.ok inner)
      = Except.ok inner
    rw [if_neg h1, if_neg (show ¬ expected ≠ inner.typeOf from fun hh => hh hty.symm)]
  · intro hty hinner
    have herr : ∃ msg, ensureObjectOnDelete obj expected = Except.error msg := by
      cases obj with
      | res t u ns na =>
          refine ⟨"could not get object from tombstone", ?_⟩
          show (if expected = (GoObj.res t u ns na).typeOf then Except.ok (GoObj.res t u ns na)
              else Except.error ("could not get object from tombstone"))
            = Except.error ("could not get object from tombstone")
          rw [if_neg (show ¬ expected = (GoObj.res t u ns na).typeOf from fun hh => hty hh.symm)]
      | tomb inner =>
          refine ⟨"expected tombstone object resource type mismatch", ?_⟩
          show (if expected = (GoObj.tomb inner).typeOf then Except.ok (GoObj.tomb inner)
              else if expected ≠ inner.typeOf then
                Except.error ("expected tombstone object resource type mismatch")
              else Except.ok inner)
            = Except.error ("expected tombstone object resource type mismatch")
          rw [if_neg (show ¬ expected = (GoObj.tomb inner).typeOf from fun hh => hty hh.symm),
            if_pos (show expected ≠ inner.typeOf from fun hh => hinner inner rfl hh.symm)]
    obtain ⟨msg, hmsg⟩ := herr
    refine ⟨⟨msg, hmsg⟩, ?_, ?_⟩
    · rw [federatedDelete, hmsg]
    · rw [queuedDelete, hmsg]

/-- Witness for claim C8 on a tombstone wrapping a node delivered to a pod
informer. -/
theorem delete_routing_cases_witness :
    (((GoObj.tomb (GoObj.res ("Node") 5 ("") ("n1"))).typeOf = GoType.resource ("Pod") →
        ensureObjectOnDelete (GoObj.tomb (GoObj.res ("Node") 5 ("") ("n1"))) (GoType.resource ("Pod"))
          = Except.ok (GoObj.tomb (GoObj.res ("Node") 5 ("") ("n1"))))) ∧
    (∀ inner, GoObj.tomb (GoObj.res ("Node") 5 ("") ("n1")) = GoObj.tomb inner →
        inner.typeOf = GoType.resource ("Pod") →
        ensureObjectOnDelete (GoObj.tomb (GoObj.res ("Node") 5 ("") ("n1"))) (GoType.resource ("Pod"))
          = Except.ok inner) ∧
    ((GoObj.tomb (GoObj.res ("Node") 5 ("") ("n1"))).typeOf ≠ GoType.resource ("Pod") →
        (∀ inner, GoObj.tomb (GoObj.res ("Node") 5 ("") ("n1")) = GoObj.tomb inner →
            inner.typeOf ≠ GoType.resource ("Pod")) →
        (∃ msg, ensureObjectOnDelete (GoObj.tomb (GoObj.res ("Node") 5 ("") ("n1"))) (GoType.resource ("Pod"))
            = Except.error msg) ∧
        federatedDelete 1 (fun _ => []) (GoType.resource ("Pod")) (GoObj.tomb (GoObj.res ("Node") 5 ("") ("n1"))) = [] ∧
        queuedDelete 1 (fun _ => []) (GoType.resource ("Pod")) (GoObj.tomb (GoObj.res ("Node") 5 ("") ("n1"))) = []) :=
  delete_routing_cases 1 (fun _ => []) (GoType.resource ("Pod"))
    (GoObj.tomb (GoObj.res ("Node") 5 ("") ("n1"))) (by decide)

/-- Claim C9: given a successful enumeration of the secondary-network logical
switches and routers, `CleanupDeletedNetworks` returns success regardless of
per-network cleanup failures, and every stale network whose dummy controller
was instantiated gets its `Cleanup` invoked (a failing `Cleanup` of one
network never prevents the others from being invoked). -/
theorem cleanupDeletedNetworks_tolerates_failures (env : CleanupEnv)
    (switches routers : List SecondaryEntity)
    (hfind : env.find = Except.ok (switches, routers)) :
    (CleanupDeletedNetworks env).1 = Except.ok () ∧
    ∀ net ∈ staleNetworks env switches routers,
      (net, env.cleanup net) ∈ (CleanupDeletedNetworks env).2 := by
  constructor
  · simp [CleanupDeletedNetworks, hfind]
  · intro net hmem
    simp only [CleanupDeletedNetworks, hfind]
    exact mem_cleanupLoop env.cleanup _ net hmem

/-- Witness for claim C9: `netA` fails its cleanup yet both `netA` and `netC`
get their `Cleanup` invoked and the call returns success. -/
theorem cleanupDeletedNetworks_tolerates_failures_witness :
    (CleanupDeletedNetworks cleanupWitnessEnv).1 = Except.ok () ∧
    ("netA", Except.error ("cleanup failed")) ∈ (CleanupDeletedNetworks cleanupWitnessEnv).2 ∧
    ("netC", Except.ok ()) ∈ (CleanupDeletedNetworks cleanupWitnessEnv).2 := by
  obtain ⟨h1, h2⟩ := cleanupDeletedNetworks_tolerates_failures cleanupWitnessEnv
    [{ netName := "netA", topoType := "layer3" }, { netName := "netB", topoType := "layer2" }]
    [{ netName := "netC", topoType := "localnet" }, { netName := "default", topoType := "layer3" }]
    rfl
  refine ⟨h1, ?_, ?_⟩
  · have h3 := h2 ("netA") (by decide)
    simpa using h3
  · have h3 := h2 ("netC") (by decide)
    simpa using h3

/-- Claim C10: with the random start drawn as `cryptorand.Intn` of the queue
count minus one — hence at most the queue count minus two, which also
requires at least two queues for `Intn` to be defined at all —
`getNewQueueNum` always returns an index strictly below the number of
queues. -/
theorem getNewQueueNum_in_range (queueLens : List Nat) (startIdx : Nat)
    (hq : 2 ≤ queueLens.length) (hs : startIdx ≤ queueLens.length - 2) :
    getNewQueueNum queueLens startIdx < queueLens.length := by
  have hpos : 0 < queueLens.length := by omega
  have hstart : startIdx < queueLens.length := by omega
  have key : ∀ (l : List Nat) (acc : Nat × Nat), acc.1 < queueLens.length →
      ((l.foldl (fun (acc : Nat × Nat) j =>
          let tryQueue := (startIdx + j) % queueLens.length
          let num := queueLens.getD tryQueue 0
          if num < acc.2 then (tryQueue, num) else acc) acc).1 < queueLens.length) := by
    intro l
    induction l with
    | nil => intro acc h; simpa using h
    | cons hd tl ih =>
        intro acc h
        simp only [List.foldl_cons]
        apply ih
        dsimp only
        split
        · exact Nat.mod_lt _ hpos
        · exact h
  exact key (List.range queueLens.length) (startIdx, queueLens.getD startIdx 0) hstart

/-- Witness for claim C10 on a three-queue map with start index 1. -/
theorem getNewQueueNum_in_range_witness :
    getNewQueueNum [3, 1, 2] 1 < ([3, 1, 2] : List Nat).length :=
  getNewQueueNum_in_range [3, 1, 2] 1 (by decide) (by decide)
